import Mathlib

/-!
Verification of the core widget-tree logic of a small C++ GUI toolkit
(src/gui.hpp, src/gui.cpp): event bubbling, hit-testing, rendering
traces, layout algorithms and tree search.

The embedding is shallow: the widget tree is an inductive rose tree
(`Widget` / `WidgetList`); the C++ parent back-pointer chain is
represented by passing the list of ancestors (for `emit`) or the
accumulated ancestor offset (for `render` / `findWidgetAt`), which is
exactly what the source's parent-chain walks compute.  Side effects are
made explicit: handler invocations and emitted events become traces
(lists), SDL drawing calls become a `DrawCall` trace, and the mutable
backend state read by the source (mouse position and buttons from
SDL_GetMouseState, font and renderer presence, TTF text measurement)
becomes an explicit `Backend` record.
-/

namespace Gui

/-- Event kinds, from `enum class EventType` in gui.hpp. -/
inductive EventType : Type where
  | Click
  | TextChanged
  | KeyPress
  | MouseMove
  | MouseEnter
  | MouseLeave
  | FocusGained
  | FocusLost
  | WindowClose
  | WindowResize
deriving DecidableEq

/-- RGBA color, from `SDL_Color` as used by the render context. -/
structure Color where
  r : Nat
  g : Nat
  b : Nat
  a : Nat
deriving DecidableEq

/-- The widget kind together with the kind-specific fields of the
concrete subclasses implemented in gui.cpp (`Button::text`,
`Label::text`, `TextInput::text`/`placeholder`, `Window::title`). -/
inductive WKind : Type where
  | button (text : String)
  | label (text : String)
  | textInput (text : String) (placeholder : String)
  | container
  | window (title : String)
deriving DecidableEq

/-- The base-class fields of `Widget` that gui.cpp reads or writes:
id, relative position, size, the `visible` and `enabled` flags, and the
event-handler registry.  `eventHandlers` (a map from kind to a vector
of callbacks, filled by `Widget::on` push_back) is modelled as the
registration log: the list of (kind, handler id) pairs in the order the
handlers were registered. -/
structure WData where
  wid : String
  px : Int
  py : Int
  width : Int
  height : Int
  visible : Bool
  enabled : Bool
  handlers : List (EventType × Nat)
  kind : WKind
deriving DecidableEq

mutual
/-- A widget together with its owned children, in insertion order
(`Widget::children`, filled by `Widget::add` push_back). -/
inductive Widget : Type where
  | node : WData → WidgetList → Widget
/-- The child list of a widget, head = first-added child. -/
inductive WidgetList : Type where
  | nil : WidgetList
  | cons : Widget → WidgetList → WidgetList
end

/-- The base-class data of a widget. -/
def Widget.dat : Widget → WData
  | .node d _ => d

/-- The child list of a widget. -/
def Widget.childList : Widget → WidgetList
  | .node _ cs => cs

/-- The widget's id. -/
def Widget.wid (w : Widget) : String := w.dat.wid

/-- The widget's x position relative to its parent. -/
def Widget.px (w : Widget) : Int := w.dat.px

/-- The widget's y position relative to its parent. -/
def Widget.py (w : Widget) : Int := w.dat.py

/-- The widget's width. -/
def Widget.width (w : Widget) : Int := w.dat.width

/-- The widget's height. -/
def Widget.height (w : Widget) : Int := w.dat.height

/-- The widget's `visible` flag. -/
def Widget.visible (w : Widget) : Bool := w.dat.visible

/-- The widget's `enabled` flag. -/
def Widget.enabled (w : Widget) : Bool := w.dat.enabled

/-- The widget's handler registration log. -/
def Widget.handlers (w : Widget) : List (EventType × Nat) := w.dat.handlers

/-- The widget's kind. -/
def Widget.kind (w : Widget) : WKind := w.dat.kind

/-- Convert a child list to a plain list, preserving insertion order. -/
def WidgetList.toList : WidgetList → List Widget
  | .nil => []
  | .cons c cs => c :: cs.toList

/-- An event, from `struct Event` in gui.hpp: kind tag, originating
widget and string-keyed payload (the `unordered_map` payload is built
from a brace-init list in all creation sites, modelled as that
association list). -/
structure Event where
  type : EventType
  source : Widget
  data : List (String × String)

/-- The handlers registered for one event kind, in registration order:
the per-kind vector of `eventHandlers[type]` rebuilt from the
registration log. -/
def handlersFor (hs : List (EventType × Nat)) (t : EventType) : List Nat :=
  (hs.filter (fun p => p.1 == t)).map (fun p => p.2)

/-- `Widget::on(type, handler)`: appends the handler to the list for
that kind (`eventHandlers[type].push_back(handler)`). -/
def Widget.on : Widget → EventType → Nat → Widget
  | .node d cs, t, h =>
    .node ⟨d.wid, d.px, d.py, d.width, d.height, d.visible, d.enabled,
           d.handlers ++ [(t, h)], d.kind⟩ cs

/-- The handler runs `Widget::emit` performs on `this` widget alone:
each handler registered for the event's kind, in registration order,
tagged with the widget's id. -/
def ownRuns (w : Widget) (e : Event) : List (String × Nat) :=
  (handlersFor w.handlers e.type).map (fun h => (w.wid, h))

/-- `Widget::emit(event)` as a trace of handler invocations.  The C++
walks the parent back-pointer; here the ancestor chain (nearest parent
first) is passed explicitly.  The source runs the handlers found in
`eventHandlers` for `event.type`, then, when `parent && event.type !=
EventType::WindowClose`, recurses into `parent->emit(event)` with the
same event. -/
def Widget.emit : Widget → List Widget → Event → List (String × Nat)
  | w, [], e => ownRuns w e
  | w, p :: rest, e =>
    ownRuns w e ++ (if e.type = EventType.WindowClose then [] else Widget.emit p rest e)

/-- `Button::click()`: returns the (unchanged) widget together with the
list of events it emits.  The source is `if (!enabled) return;` then a
single `emit` of `Event{EventType::Click, this, {}}`. -/
def Button.click (w : Widget) : Widget × List Event :=
  if w.enabled = false then (w, [])
  else (w, [⟨EventType.Click, w, []⟩])

/-- `TextInput::setText(text)`: stores the new text, then emits one
TextChanged event `Event{EventType::TextChanged, this, {{"text",
text}}}` (the source is unconditional: no comparison with the old
text).  On a widget that is not a TextInput the method does not exist;
that branch returns the widget unchanged. -/
def TextInput.setText : Widget → String → Widget × List Event
  | .node d cs, t =>
    match d.kind with
    | .textInput _ ph =>
      let w2 : Widget :=
        .node ⟨d.wid, d.px, d.py, d.width, d.height, d.visible, d.enabled,
               d.handlers, .textInput t ph⟩ cs
      (w2, [⟨EventType.TextChanged, w2, [("text", t)]⟩])
    | _ => (.node d cs, [])

/-- `Widget::setPosition(x, y)` applied to a widget's base data: only
the position fields change. -/
def dataWithPos (d : WData) (nx ny : Int) : WData :=
  ⟨d.wid, nx, ny, d.width, d.height, d.visible, d.enabled, d.handlers, d.kind⟩

/-- The `VerticalLayout` strategy object: its `spacing` and `padding`
constructor parameters. -/
structure VerticalLayout where
  spacing : Int
  padding : Int

/-- The `HorizontalLayout` strategy object. -/
structure HorizontalLayout where
  spacing : Int
  padding : Int

/-- The loop body of `VerticalLayout::apply`: `curY` is the running
`currentY`; each child gets `setPosition(padding, currentY)` and then
`currentY += child->getHeight() + spacing`. -/
def applyVerticalFrom (l : VerticalLayout) : Int → WidgetList → WidgetList
  | _, .nil => .nil
  | curY, .cons (.node d cs) rest =>
    .cons (Widget.node (dataWithPos d l.padding curY) cs)
          (applyVerticalFrom l (curY + d.height + l.spacing) rest)

/-- `VerticalLayout::apply(container)`: repositions the container's
children, starting with `currentY = padding`.  The container itself is
untouched; the function maps the child list to the new child list. -/
def VerticalLayout.apply (l : VerticalLayout) (ws : WidgetList) : WidgetList :=
  applyVerticalFrom l l.padding ws

/-- The loop body of `HorizontalLayout::apply`: mirror of the vertical
case on the x axis. -/
def applyHorizontalFrom (l : HorizontalLayout) : Int → WidgetList → WidgetList
  | _, .nil => .nil
  | curX, .cons (.node d cs) rest =>
    .cons (Widget.node (dataWithPos d curX l.padding) cs)
          (applyHorizontalFrom l (curX + d.width + l.spacing) rest)

/-- `HorizontalLayout::apply(container)`. -/
def HorizontalLayout.apply (l : HorizontalLayout) (ws : WidgetList) : WidgetList :=
  applyHorizontalFrom l l.padding ws

/-- Erase a widget's own position (x := 0, y := 0), keeping every other
field and the whole subtree.  Two child lists agree after `clearPosL`
exactly when they differ at most in the top-level position fields. -/
def clearPos : Widget → Widget
  | .node d cs => Widget.node (dataWithPos d 0 0) cs

/-- `clearPos` mapped over a child list. -/
def clearPosL : WidgetList → WidgetList
  | .nil => .nil
  | .cons c cs => .cons (clearPos c) (clearPosL cs)

mutual
/-- `Widget::find(id)`: returns `this` when the id matches, otherwise
searches the children in insertion order, depth first. -/
def Widget.find : Widget → String → Option Widget
  | .node d cs, t =>
    if d.wid = t then some (Widget.node d cs) else findInChildren cs t
/-- The loop of `Widget::find` over the child list: first child's
subtree first. -/
def findInChildren : WidgetList → String → Option Widget
  | .nil, _ => none
  | .cons c cs, t =>
    match Widget.find c t with
    | some r => some r
    | none => findInChildren cs t
end

mutual
/-- The depth-first pre-order listing of a widget tree: the widget
itself, then each child's listing in insertion order. -/
def preorder : Widget → List Widget
  | .node d cs => Widget.node d cs :: preorderChildren cs
/-- Pre-order listings of a child list, concatenated in insertion
order. -/
def preorderChildren : WidgetList → List Widget
  | .nil => []
  | .cons c cs => preorder c ++ preorderChildren cs
end

/-- The bounding-box test of `Window::findWidgetAt` (and the hover test
of `Button::render`): `x >= absX && x < absX + width && y >= absY && y
< absY + height`, with `(ax, ay)` the widget's absolute position. -/
def containsPt (w : Widget) (ax ay px py : Int) : Bool :=
  decide (ax ≤ px ∧ px < ax + w.width ∧ ay ≤ py ∧ py < ay + w.height)

mutual
/-- `Window::findWidgetAt(root, x, y)`.  `(ox, oy)` is the sum of the
ancestors' relative positions, which is what the source's parent-chain
walk computes for `absX`/`absY`.  Invisible widgets cut off the search
(`if (!root || !root->isVisible()) return nullptr;`); children are
tried in reverse insertion order before the widget's own box. -/
def findWidgetAt : Widget → Int → Int → Int → Int → Option Widget
  | .node d cs, ox, oy, px, py =>
    if d.visible = false then none
    else
      match findWidgetAtRev cs (ox + d.px) (oy + d.py) px py with
      | some r => some r
      | none =>
        if containsPt (Widget.node d cs) (ox + d.px) (oy + d.py) px py
        then some (Widget.node d cs) else none
/-- The `rbegin()`..`rend()` loop of `Window::findWidgetAt`: the later
part of the child list (the later-added children) is tried first. -/
def findWidgetAtRev : WidgetList → Int → Int → Int → Int → Option Widget
  | .nil, _, _, _, _ => none
  | .cons c cs, ox, oy, px, py =>
    match findWidgetAtRev cs ox oy px py with
    | some r => some r
    | none => findWidgetAt c ox oy px py
end

mutual
/-- The hit-test candidate order of `findWidgetAt`: every widget the
search can return, paired with its absolute position, in the order the
search tests bounding boxes — descendants before ancestors, later
siblings before earlier ones, invisible subtrees pruned entirely. -/
def hitOrder : Widget → Int → Int → List (Widget × Int × Int)
  | .node d cs, ox, oy =>
    if d.visible = false then []
    else hitOrderRev cs (ox + d.px) (oy + d.py) ++
         [(Widget.node d cs, ox + d.px, oy + d.py)]
/-- Candidate orders of a child list, later-added children first. -/
def hitOrderRev : WidgetList → Int → Int → List (Widget × Int × Int)
  | .nil, _, _ => []
  | .cons c cs, ox, oy => hitOrderRev cs ox oy ++ hitOrder c ox oy
end

/-- Whether a hit-test candidate's absolute bounding box contains the
point. -/
def hitP (px py : Int) (e : Widget × Int × Int) : Bool :=
  containsPt e.1 e.2.1 e.2.2 px py

mutual
/-- Every widget of the tree paired with its absolute position, no
visibility pruning. -/
def nodesAbs : Widget → Int → Int → List (Widget × Int × Int)
  | .node d cs, ox, oy =>
    (Widget.node d cs, ox + d.px, oy + d.py) ::
    nodesAbsChildren cs (ox + d.px) (oy + d.py)
/-- `nodesAbs` over a child list. -/
def nodesAbsChildren : WidgetList → Int → Int → List (Widget × Int × Int)
  | .nil, _, _ => []
  | .cons c cs, ox, oy => nodesAbs c ox oy ++ nodesAbsChildren cs ox oy
end

/-- One drawing call issued to the SDL backend: `drawRect`
(SDL_RenderFillRect / SDL_RenderDrawRect), `drawText`
(TTF_RenderText_Blended + SDL_RenderCopy), the clear at the top of
`Window::render`, and the final SDL_RenderPresent. -/
inductive DrawCall : Type where
  | rect (x y w h : Int) (c : Color) (filled : Bool)
  | text (s : String) (x y : Int) (c : Color)
  | clear (c : Color)
  | present
deriving DecidableEq

/-- The mutable backend state the render code reads: whether
`g_context.renderer` and `g_context.font` are non-null, the
TTF_SizeText measurement, and the SDL_GetMouseState position and left
button. -/
structure Backend where
  rendererPresent : Bool
  fontPresent : Bool
  measure : String → Int × Int
  mouseX : Int
  mouseY : Int
  mouseLeftDown : Bool

/-- The render-context colors of `RenderContext` in gui.cpp. -/
def gTextColor : Color := ⟨0, 0, 0, 255⟩

/-- `g_context.backgroundColor`. -/
def gBackgroundColor : Color := ⟨240, 240, 240, 255⟩

/-- `g_context.borderColor`. -/
def gBorderColor : Color := ⟨180, 180, 180, 255⟩

/-- `g_context.buttonColor`. -/
def gButtonColor : Color := ⟨225, 225, 225, 255⟩

/-- `g_context.buttonHoverColor`. -/
def gButtonHoverColor : Color := ⟨210, 210, 210, 255⟩

/-- `g_context.buttonPressedColor`. -/
def gButtonPressedColor : Color := ⟨195, 195, 195, 255⟩

/-- The `disabledColor` local of `Button::render`. -/
def gDisabledColor : Color := ⟨200, 200, 200, 255⟩

/-- The disabled / placeholder text color `{150, 150, 150, 255}`. -/
def gDisabledTextColor : Color := ⟨150, 150, 150, 255⟩

/-- The enabled TextInput background `{255, 255, 255, 255}`. -/
def gWhiteColor : Color := ⟨255, 255, 255, 255⟩

/-- The disabled TextInput background `{240, 240, 240, 255}`. -/
def gInputDisabledColor : Color := ⟨240, 240, 240, 255⟩

/-- `getTextSize`: zero when the font is missing or the text empty,
otherwise the font measurement. -/
def getTextSize (env : Backend) (s : String) : Int × Int :=
  if env.fontPresent = false ∨ s = "" then (0, 0) else env.measure s

/-- `drawText`: emits nothing when the font is missing or the text is
empty, otherwise one text drawing call. -/
def drawTextCalls (env : Backend) (s : String) (x y : Int) (c : Color) : List DrawCall :=
  if env.fontPresent = false ∨ s = "" then [] else [DrawCall.text s x y c]

/-- `Button::render`: early return when invisible; hover and pressed
states from the live mouse; filled background (pressed / hover / plain
when enabled, fixed gray when disabled), outlined border, then the text
centered with truncating integer division. -/
def buttonCalls (env : Backend) (ox oy : Int) (d : WData) (t : String) : List DrawCall :=
  if d.visible = false then []
  else
    let ax := ox + d.px
    let ay := oy + d.py
    let hover := decide (ax ≤ env.mouseX ∧ env.mouseX < ax + d.width ∧
                         ay ≤ env.mouseY ∧ env.mouseY < ay + d.height)
    let pressed := hover && env.mouseLeftDown
    let bg := if pressed then gButtonPressedColor
              else if hover then gButtonHoverColor else gButtonColor
    (if d.enabled then [DrawCall.rect ax ay d.width d.height bg true]
     else [DrawCall.rect ax ay d.width d.height gDisabledColor true])
    ++ [DrawCall.rect ax ay d.width d.height gBorderColor false]
    ++ (if t = "" then []
        else
          let ts := getTextSize env t
          let tx := ax + Int.tdiv (d.width - ts.1) 2
          let ty := ay + Int.tdiv (d.height - ts.2) 2
          drawTextCalls env t tx ty
            (if d.enabled then gTextColor else gDisabledTextColor))

/-- `Label::render`: early return when invisible, otherwise the text at
the absolute position. -/
def labelCalls (env : Backend) (ox oy : Int) (d : WData) (t : String) : List DrawCall :=
  if d.visible = false then []
  else drawTextCalls env t (ox + d.px) (oy + d.py) gTextColor

/-- `TextInput::render`: early return when invisible; filled
background (white when enabled), outlined border, then the stored text
or, when it is empty, the placeholder in the dimmed color. -/
def textInputCalls (env : Backend) (ox oy : Int) (d : WData)
    (t ph : String) : List DrawCall :=
  if d.visible = false then []
  else
    let ax := ox + d.px
    let ay := oy + d.py
    let bg := if d.enabled then gWhiteColor else gInputDisabledColor
    [DrawCall.rect ax ay d.width d.height bg true,
     DrawCall.rect ax ay d.width d.height gBorderColor false]
    ++ (let display := if t = "" then ph else t
        let tcol := if t = "" then gDisabledTextColor else gTextColor
        let ts := getTextSize env display
        let ty := ay + Int.tdiv (d.height - ts.2) 2
        drawTextCalls env display (ax + 5) ty tcol)

mutual
/-- The `render()` overrides of gui.cpp as a drawing-call trace.
`(ox, oy)` is the ancestor offset the source's parent-chain walk
computes.  `Container::render` draws nothing itself and recurses into
the children when visible; `Window::render` is guarded by
`g_context.renderer` only — it does not consult `visible` — and wraps
the children between a clear and a present. -/
def render : Backend → Int → Int → Widget → List DrawCall
  | env, ox, oy, .node d cs =>
    match d.kind with
    | .button t => buttonCalls env ox oy d t
    | .label t => labelCalls env ox oy d t
    | .textInput t ph => textInputCalls env ox oy d t ph
    | .container =>
      if d.visible = false then []
      else renderChildren env (ox + d.px) (oy + d.py) cs
    | .window _ =>
      if env.rendererPresent = false then []
      else DrawCall.clear gBackgroundColor ::
           (renderChildren env (ox + d.px) (oy + d.py) cs ++ [DrawCall.present])
/-- Children rendered in insertion order (the paint order of the
`for (auto& child : children) child->render();` loops). -/
def renderChildren : Backend → Int → Int → WidgetList → List DrawCall
  | _, _, _, .nil => []
  | env, ox, oy, .cons c cs => render env ox oy c ++ renderChildren env ox oy cs
end

/-! Concrete fixtures used by the counterexamples and witnesses. -/

/-- A leaf button with two registered handlers. -/
def exLeaf : Widget :=
  .node ⟨"leaf", 0, 0, 100, 30, true, true,
         [(EventType.Click, 1), (EventType.TextChanged, 2)], .button "ok"⟩ .nil

/-- A container acting as the parent of `exLeaf` in the witness
chain. -/
def exParent : Widget :=
  .node ⟨"parent", 0, 0, 200, 200, true, true,
         [(EventType.Click, 9), (EventType.WindowClose, 10)], .container⟩ .nil

/-- A WindowClose event originating at `exLeaf`. -/
def evClose : Event := ⟨EventType.WindowClose, exLeaf, []⟩

/-- First-added of two overlapping siblings. -/
def tieB1 : Widget := .node ⟨"b1", 0, 0, 10, 10, true, true, [], .button "x"⟩ .nil

/-- Later-added of two overlapping siblings, same position and size. -/
def tieB2 : Widget := .node ⟨"b2", 0, 0, 10, 10, true, true, [], .button "y"⟩ .nil

/-- A window holding the two overlapping siblings. -/
def tieRoot : Widget :=
  .node ⟨"window", 0, 0, 100, 100, true, true, [], .window "w"⟩
        (.cons tieB1 (.cons tieB2 .nil))

/-- A childless window whose `visible` flag is false. -/
def winInvisible : Widget :=
  .node ⟨"window", 0, 0, 800, 600, false, true, [], .window "t"⟩ .nil

/-- A trivial text measurement. -/
def mzero : String → Int × Int := fun _ => (0, 0)

/-- A backend with renderer and font present and the mouse at the
origin. -/
def envRenderer : Backend := ⟨true, true, mzero, 0, 0, false⟩

/-- A plain visible enabled button at (0,0) of size 100×30, no text. -/
def bPlain : Widget := .node ⟨"b", 0, 0, 100, 30, true, true, [], .button ""⟩ .nil

/-- Backend state with the mouse outside `bPlain`. -/
def envMouseOut : Backend := ⟨true, true, mzero, -10, -10, false⟩

/-- Backend state with the mouse inside `bPlain`, button up. -/
def envMouseIn : Backend := ⟨true, true, mzero, 5, 5, false⟩

/-- A child of height 20. -/
def hChild20 : Widget := .node ⟨"a", 0, 0, 50, 20, true, true, [], .container⟩ .nil

/-- A child of height 30. -/
def hChild30 : Widget := .node ⟨"b", 0, 0, 50, 30, true, true, [], .container⟩ .nil

/-- A child of height 10. -/
def hChild10 : Widget := .node ⟨"c", 0, 0, 50, 10, true, true, [], .container⟩ .nil

/-- The child list of heights [20, 30, 10] from the spec's layout
example. -/
def heightsList : WidgetList := .cons hChild20 (.cons hChild30 (.cons hChild10 .nil))

/-- Pre-order-first holder of the duplicated id "dup". -/
def dupFirst : Widget := .node ⟨"dup", 1, 0, 10, 10, true, true, [], .label "first"⟩ .nil

/-- Second holder of the duplicated id "dup". -/
def dupSecond : Widget := .node ⟨"dup", 2, 0, 10, 10, true, true, [], .label "second"⟩ .nil

/-- A root whose two children share the id "dup". -/
def dupRoot : Widget :=
  .node ⟨"root", 0, 0, 100, 100, true, true, [], .container⟩
        (.cons dupFirst (.cons dupSecond .nil))

/-- A visible button placed at (50,50), far outside its parent's
10×10 box. -/
def c10Inner : Widget := .node ⟨"inner", 50, 50, 10, 10, true, true, [], .button ""⟩ .nil

/-- A small 10×10 container at the origin holding `c10Inner`. -/
def c10Panel : Widget :=
  .node ⟨"panel", 0, 0, 10, 10, true, true, [], .container⟩ (.cons c10Inner .nil)

/-- The window above `c10Panel`. -/
def c10Root : Widget :=
  .node ⟨"window", 0, 0, 100, 100, true, true, [], .window "w"⟩ (.cons c10Panel .nil)

/-- A disabled button. -/
def bDisabled : Widget :=
  .node ⟨"d", 0, 0, 10, 10, true, false, [], .button "no"⟩ .nil

/-- `Widget::setVisible` applied to the base data: only the `visible`
flag changes. -/
def dataWithVisible (d : WData) (b : Bool) : WData :=
  ⟨d.wid, d.px, d.py, d.width, d.height, b, d.enabled, d.handlers, d.kind⟩

/-- An invisible button. -/
def bInvisible : Widget :=
  .node ⟨"bi", 0, 0, 10, 10, false, true, [], .button "x"⟩ .nil

/-- A childless visible window. -/
def winVisible : Widget :=
  .node ⟨"window", 0, 0, 800, 600, true, true, [], .window "t"⟩ .nil

/-- The running-coordinate sequence of the layout loops: starting at
`cur`, each step advances by the current child's extent plus the
spacing.  Used to characterize the per-child coordinates produced by
`applyVerticalFrom` / `applyHorizontalFrom`. -/
def vAcc (s : Int) : Int → List Int → List Int
  | _, [] => []
  | cur, h :: hs => cur :: vAcc s (cur + h + s) hs

/-! Theorems. -/

/-- C1: `Widget::emit` first runs every handler registered on the
widget for the event's kind, in registration order (registering a
handler appends it to the run list for that kind and leaves the other
kinds' lists alone), then re-invokes emit on the parent with the same
event unless the kind is WindowClose; propagation stops at the root
(empty ancestor chain) or at a WindowClose event, which therefore never
bubbles past the widget it was emitted on. -/
theorem emit_bubbles_unless_windowClose :
    (∀ (w : Widget) (e : Event), Widget.emit w [] e = ownRuns w e) ∧
    (∀ (w p : Widget) (rest : List Widget) (e : Event),
      Widget.emit w (p :: rest) e =
        ownRuns w e ++
          (if e.type = EventType.WindowClose then [] else Widget.emit p rest e)) ∧
    (∀ (w : Widget) (anc : List Widget) (e : Event),
      e.type = EventType.WindowClose → Widget.emit w anc e = ownRuns w e) ∧
    (∀ (w : Widget) (t : EventType) (h : Nat),
      handlersFor (Widget.on w t h).handlers t = handlersFor w.handlers t ++ [h]) ∧
    (∀ (w : Widget) (t u : EventType) (h : Nat), u ≠ t →
      handlersFor (Widget.on w t h).handlers u = handlersFor w.handlers u) := by
  refine ⟨fun w e => rfl, fun w p rest e => rfl, ?_, ?_, ?_⟩
  · intro w anc e he
    cases anc with
    | nil => rfl
    | cons p rest => simp [Widget.emit, he]
  · intro w t h
    cases w with
    | node d cs =>
      simp [Widget.on, Widget.handlers, Widget.dat, handlersFor, List.filter_append]
  · intro w t u h hne
    cases w with
    | node d cs =>
      simp [Widget.on, Widget.handlers, Widget.dat, handlersFor, List.filter_append,
            Ne.symm hne]

/-- Witness for C1: a WindowClose event emitted on `exLeaf` with
parent `exParent` runs only the leaf's own handlers, and registering a
Click handler leaves the TextChanged handler list unchanged. -/
theorem emit_bubbles_unless_windowClose_witness :
    Widget.emit exLeaf [exParent] evClose = ownRuns exLeaf evClose ∧
    handlersFor (Widget.on exLeaf EventType.Click 7).handlers EventType.TextChanged =
      handlersFor exLeaf.handlers EventType.TextChanged :=
  ⟨emit_bubbles_unless_windowClose.2.2.1 exLeaf [exParent] evClose rfl,
   emit_bubbles_unless_windowClose.2.2.2.2 exLeaf EventType.Click EventType.TextChanged 7
     (by decide)⟩

/-- C4: `Button::click` on a disabled button emits nothing and leaves
the widget unchanged; on an enabled button it emits exactly one Click
event, with empty payload, whose source is that button. -/
theorem click_disabled_silent_enabled_single :
    ∀ (w : Widget) (t : String), w.kind = WKind.button t →
      (w.enabled = false → Button.click w = (w, [])) ∧
      (w.enabled = true →
        Button.click w = (w, [⟨EventType.Click, w, []⟩])) := by
  intro w t _
  constructor
  · intro he; simp [Button.click, he]
  · intro he; simp [Button.click, he]

/-- Witness for C4: the enabled button `bPlain` emits one Click event
sourced at itself; the disabled button `bDisabled` emits nothing. -/
theorem click_disabled_silent_enabled_single_witness :
    Button.click bPlain = (bPlain, [⟨EventType.Click, bPlain, []⟩]) ∧
    Button.click bDisabled = (bDisabled, []) :=
  ⟨(click_disabled_silent_enabled_single bPlain "" rfl).2 rfl,
   (click_disabled_silent_enabled_single bDisabled "no" rfl).1 rfl⟩

/-- C5: `TextInput::setText(t)` stores t (all other fields and the
subtree unchanged) and emits exactly one TextChanged event whose
payload maps "text" to t and whose source is the input — for every
previous text `old`, equal to t or not: the source never compares
them. -/
theorem setText_stores_and_emits_textChanged :
    ∀ (i : String) (x y wd ht : Int) (vis en : Bool)
      (hs : List (EventType × Nat)) (old ph : String) (cs : WidgetList) (t : String),
      TextInput.setText
          (Widget.node ⟨i, x, y, wd, ht, vis, en, hs, WKind.textInput old ph⟩ cs) t =
        (Widget.node ⟨i, x, y, wd, ht, vis, en, hs, WKind.textInput t ph⟩ cs,
         [⟨EventType.TextChanged,
           Widget.node ⟨i, x, y, wd, ht, vis, en, hs, WKind.textInput t ph⟩ cs,
           [("text", t)]⟩]) := by
  intro i x y wd ht vis en hs old ph cs t
  rfl

/-- The y coordinates written by the vertical layout loop follow the
accumulator sequence over the children's heights. -/
theorem applyVFrom_py_list : ∀ (l : VerticalLayout) (cur : Int) (ws : WidgetList),
    (applyVerticalFrom l cur ws).toList.map Widget.py =
      vAcc l.spacing cur (ws.toList.map Widget.height)
  | _, _, .nil => rfl
  | l, cur, .cons (.node d gs) rest => by
    simp [applyVerticalFrom, WidgetList.toList, vAcc, Widget.py, Widget.height, Widget.dat,
          dataWithPos, applyVFrom_py_list l (cur + d.height + l.spacing) rest]

/-- The x coordinates written by the vertical layout loop are all the
padding. -/
theorem applyVFrom_px_list : ∀ (l : VerticalLayout) (cur : Int) (ws : WidgetList),
    (applyVerticalFrom l cur ws).toList.map Widget.px =
      List.replicate ws.toList.length l.padding
  | _, _, .nil => rfl
  | l, cur, .cons (.node d gs) rest => by
    simp [applyVerticalFrom, WidgetList.toList, Widget.px, Widget.dat, dataWithPos,
          List.replicate, applyVFrom_px_list l (cur + d.height + l.spacing) rest]

/-- Each accumulator entry past the first equals the previous entry
plus the previous extent plus the spacing. -/
theorem vAcc_step : ∀ (s cur : Int) (hs : List Int) (i : Nat), i + 1 < hs.length →
    (vAcc s cur hs).getD (i + 1) 0 = (vAcc s cur hs).getD i 0 + hs.getD i 0 + s
  | _, _, [], i, hlt => absurd hlt (by simp)
  | s, cur, h0 :: hs, 0, hlt => by
    cases hs with
    | nil => exact absurd hlt (by simp)
    | cons h1 hs2 => simp [vAcc]
  | s, cur, h0 :: hs, i + 1, hlt => by
    have ih := vAcc_step s (cur + h0 + s) hs i (by simpa using hlt)
    simpa [vAcc] using ih

/-- C6: `VerticalLayout::apply` puts the first child at
(padding, padding), keeps x = padding for every child, and places each
subsequent child directly below the previous one: its y coordinate is
the previous child's y plus the previous child's height plus the
spacing.  On children of heights [20, 30, 10] with spacing 5 and
padding 10 the resulting y positions are 10, 35, 70. -/
theorem verticalLayout_stacks_children :
    (∀ (l : VerticalLayout) (c : Widget) (rest : WidgetList),
      ((VerticalLayout.apply l (.cons c rest)).toList.map Widget.px).getD 0 0 = l.padding ∧
      ((VerticalLayout.apply l (.cons c rest)).toList.map Widget.py).getD 0 0 = l.padding) ∧
    (∀ (l : VerticalLayout) (ws : WidgetList) (i : Nat), i < ws.toList.length →
      ((VerticalLayout.apply l ws).toList.map Widget.px).getD i 0 = l.padding) ∧
    (∀ (l : VerticalLayout) (ws : WidgetList) (i : Nat), i + 1 < ws.toList.length →
      ((VerticalLayout.apply l ws).toList.map Widget.py).getD (i + 1) 0 =
        ((VerticalLayout.apply l ws).toList.map Widget.py).getD i 0 +
          (ws.toList.map Widget.height).getD i 0 + l.spacing) ∧
    ((VerticalLayout.apply ⟨5, 10⟩ heightsList).toList.map Widget.py = [10, 35, 70] ∧
      (VerticalLayout.apply ⟨5, 10⟩ heightsList).toList.map Widget.px = [10, 10, 10]) := by
  refine ⟨?_, ?_, ?_, by decide, by decide⟩
  · intro l c rest
    cases c with
    | node d gs => exact ⟨rfl, rfl⟩
  · intro l ws i hi
    rw [VerticalLayout.apply, applyVFrom_px_list]
    rw [List.getD_eq_getElem?_getD, List.getElem?_replicate]
    simp [hi]
  · intro l ws i hi
    rw [VerticalLayout.apply, applyVFrom_py_list]
    exact vAcc_step l.spacing l.padding (ws.toList.map Widget.height) i (by simpa using hi)

/-- Witness for C6: on the [20, 30, 10] example with spacing 5 and
padding 10, the second child's x is the padding and its y is the first
child's y plus 20 plus 5. -/
theorem verticalLayout_stacks_children_witness :
    ((VerticalLayout.apply ⟨5, 10⟩ heightsList).toList.map Widget.px).getD 1 0 = 10 ∧
    ((VerticalLayout.apply ⟨5, 10⟩ heightsList).toList.map Widget.py).getD 1 0 =
      ((VerticalLayout.apply ⟨5, 10⟩ heightsList).toList.map Widget.py).getD 0 0 +
        (heightsList.toList.map Widget.height).getD 0 0 + 5 :=
  ⟨verticalLayout_stacks_children.2.1 ⟨5, 10⟩ heightsList 1 (by decide),
   verticalLayout_stacks_children.2.2.1 ⟨5, 10⟩ heightsList 0 (by decide)⟩

/-- The vertical layout loop rewrites only the position fields. -/
theorem clearPosL_applyVFrom : ∀ (l : VerticalLayout) (cur : Int) (ws : WidgetList),
    clearPosL (applyVerticalFrom l cur ws) = clearPosL ws
  | _, _, .nil => rfl
  | l, cur, .cons (.node d gs) rest => by
    simp [applyVerticalFrom, clearPosL, clearPos, dataWithPos,
          clearPosL_applyVFrom l (cur + d.height + l.spacing) rest]

/-- The horizontal layout loop rewrites only the position fields. -/
theorem clearPosL_applyHFrom : ∀ (l : HorizontalLayout) (cur : Int) (ws : WidgetList),
    clearPosL (applyHorizontalFrom l cur ws) = clearPosL ws
  | _, _, .nil => rfl
  | l, cur, .cons (.node d gs) rest => by
    simp [applyHorizontalFrom, clearPosL, clearPos, dataWithPos,
          clearPosL_applyHFrom l (cur + d.width + l.spacing) rest]

/-- C9: both layout strategies change nothing but the children's own
position fields: after erasing each child's top-level position, the
child lists — sizes, flags, ids, handlers, kinds and entire
subtrees included — are identical to the originals. -/
theorem layouts_move_only_positions :
    ∀ (lv : VerticalLayout) (lh : HorizontalLayout) (ws : WidgetList),
      clearPosL (VerticalLayout.apply lv ws) = clearPosL ws ∧
      clearPosL (HorizontalLayout.apply lh ws) = clearPosL ws := by
  intro lv lh ws
  exact ⟨clearPosL_applyVFrom lv lv.padding ws, clearPosL_applyHFrom lh lh.padding ws⟩

mutual
/-- `Widget::find` returns the first pre-order node whose id
matches. -/
theorem find_eq_preorder_first : ∀ (w : Widget) (t : String),
    Widget.find w t = (preorder w).find? (fun v => v.wid == t)
  | .node d cs, t => by
    by_cases h : d.wid = t
    · rw [Widget.find, if_pos h, preorder, List.find?_cons_of_pos]
      simp [Widget.wid, Widget.dat, h]
    · rw [Widget.find, if_neg h, preorder, List.find?_cons_of_neg,
          findInChildren_eq_preorder_first cs t]
      simp [Widget.wid, Widget.dat, h]
/-- The child-list loop of `Widget::find` matches `find?` over the
concatenated pre-orders. -/
theorem findInChildren_eq_preorder_first : ∀ (cs : WidgetList) (t : String),
    findInChildren cs t = (preorderChildren cs).find? (fun v => v.wid == t)
  | .nil, _ => rfl
  | .cons c cs, t => by
    rw [findInChildren, preorderChildren, List.find?_append,
        ← find_eq_preorder_first c t, ← findInChildren_eq_preorder_first cs t]
    cases Widget.find c t <;> simp [Option.or]
end

/-- C8: `Widget::find(id)` is the depth-first pre-order search: it
returns the first widget — the receiver included — in pre-order whose
id equals the argument, and none exactly when no pre-order node
matches; on a tree with two distinct widgets sharing an id it returns
the pre-order-first one (and, being a pure function of the tree, does
so identically on every call). -/
theorem find_is_preorder_first :
    (∀ (w : Widget) (t : String),
      Widget.find w t = (preorder w).find? (fun v => v.wid == t)) ∧
    (∀ (w : Widget) (t : String),
      (Widget.find w t = none ↔ ∀ v ∈ preorder w, v.wid ≠ t)) ∧
    (Widget.find dupRoot "dup" = some dupFirst ∧
      dupFirst.wid = dupSecond.wid ∧ dupFirst ≠ dupSecond) := by
  refine ⟨find_eq_preorder_first, ?_, rfl, rfl, ?_⟩
  · intro w t
    rw [find_eq_preorder_first, List.find?_eq_none]
    simp
  · intro h
    have := congrArg Widget.px h
    simp [dupFirst, dupSecond, Widget.px, Widget.dat] at this

/-- Witness for C8: on the duplicate-id tree, searching for an absent
id returns none, via the characterization applied at that input. -/
theorem find_is_preorder_first_witness :
    Widget.find dupRoot "absent" = none :=
  (find_is_preorder_first.2.1 dupRoot "absent").2 (by decide)

mutual
/-- `Window::findWidgetAt` returns the first candidate, in the
hit-test order, whose absolute box contains the point. -/
theorem findWidgetAt_eq_hit : ∀ (w : Widget) (ox oy px py : Int),
    findWidgetAt w ox oy px py =
      ((hitOrder w ox oy).find? (hitP px py)).map (fun e => e.1)
  | .node d cs, ox, oy, px, py => by
    by_cases hv : d.visible = false
    · simp [findWidgetAt, hitOrder, hv]
    · rw [findWidgetAt, if_neg hv, hitOrder, if_neg hv, List.find?_append,
          findWidgetAtRev_eq_hit cs (ox + d.px) (oy + d.py) px py]
      cases hf : List.find? (hitP px py) (hitOrderRev cs (ox + d.px) (oy + d.py)) with
      | some e => simp [Option.or]
      | none =>
        by_cases hc : containsPt (Widget.node d cs) (ox + d.px) (oy + d.py) px py
        · simp [List.find?, hitP, hc, Option.or]
        · simp [List.find?, hitP, hc, Option.or]
/-- The reverse child loop of `findWidgetAt` matches `find?` over the
candidate order of the child list. -/
theorem findWidgetAtRev_eq_hit : ∀ (cs : WidgetList) (ox oy px py : Int),
    findWidgetAtRev cs ox oy px py =
      ((hitOrderRev cs ox oy).find? (hitP px py)).map (fun e => e.1)
  | .nil, _, _, _, _ => rfl
  | .cons c cs, ox, oy, px, py => by
    rw [findWidgetAtRev, hitOrderRev, List.find?_append,
        findWidgetAtRev_eq_hit cs ox oy px py]
    cases hf : List.find? (hitP px py) (hitOrderRev cs ox oy) with
    | some e => simp [Option.or]
    | none => simp [Option.or, findWidgetAt_eq_hit c ox oy px py]
end

mutual
/-- Every hit-test candidate is visible. -/
theorem hitOrder_mem_visible : ∀ (w : Widget) (ox oy : Int) (e : Widget × Int × Int),
    e ∈ hitOrder w ox oy → e.1.visible = true
  | .node d cs, ox, oy, e => by
    intro he
    by_cases hv : d.visible = false
    · simp [hitOrder, hv] at he
    · rw [hitOrder, if_neg hv] at he
      rcases List.mem_append.1 he with h | h
      · exact hitOrderRev_mem_visible cs (ox + d.px) (oy + d.py) e h
      · have he2 : e = (Widget.node d cs, ox + d.px, oy + d.py) := by simpa using h
        subst he2
        simpa [Widget.visible, Widget.dat] using hv
/-- Every candidate contributed by a child list is visible. -/
theorem hitOrderRev_mem_visible : ∀ (cs : WidgetList) (ox oy : Int) (e : Widget × Int × Int),
    e ∈ hitOrderRev cs ox oy → e.1.visible = true
  | .nil, _, _, e => by intro he; simp [hitOrderRev] at he
  | .cons c cs, ox, oy, e => by
    intro he
    rw [hitOrderRev] at he
    rcases List.mem_append.1 he with h | h
    · exact hitOrderRev_mem_visible cs ox oy e h
    · exact hitOrder_mem_visible c ox oy e h
end

mutual
/-- Every hit-test candidate is a node of the tree, paired with its
true absolute position. -/
theorem hitOrder_sub_nodes : ∀ (w : Widget) (ox oy : Int) (e : Widget × Int × Int),
    e ∈ hitOrder w ox oy → e ∈ nodesAbs w ox oy
  | .node d cs, ox, oy, e => by
    intro he
    by_cases hv : d.visible = false
    · simp [hitOrder, hv] at he
    · rw [hitOrder, if_neg hv] at he
      rw [nodesAbs]
      rcases List.mem_append.1 he with h | h
      · exact List.mem_cons_of_mem _ (hitOrderRev_sub_nodes cs (ox + d.px) (oy + d.py) e h)
      · have he2 : e = (Widget.node d cs, ox + d.px, oy + d.py) := by simpa using h
        subst he2
        exact List.mem_cons_self _ _
/-- Candidates contributed by a child list are nodes of that list's
subtrees with their true absolute positions. -/
theorem hitOrderRev_sub_nodes : ∀ (cs : WidgetList) (ox oy : Int) (e : Widget × Int × Int),
    e ∈ hitOrderRev cs ox oy → e ∈ nodesAbsChildren cs ox oy
  | .nil, _, _, e => by intro he; simp [hitOrderRev] at he
  | .cons c cs, ox, oy, e => by
    intro he
    rw [hitOrderRev] at he
    rw [nodesAbsChildren]
    rcases List.mem_append.1 he with h | h
    · exact List.mem_append.2 (Or.inr (hitOrderRev_sub_nodes cs ox oy e h))
    · exact List.mem_append.2 (Or.inl (hitOrder_sub_nodes c ox oy e h))
end

/-- C2: `Window::findWidgetAt` returns the first widget, in the
hit-test search order — a widget's children in reverse insertion order
before the widget itself, invisible subtrees pruned entirely — whose
absolute bounding box contains the point.  An invisible widget cuts
off its whole subtree; every candidate (hence every possible result)
is visible and is a real tree node at its true absolute position; when
no widget of the tree contains the point the result is none, and the
result is none exactly when no candidate's box contains the point.  On
two overlapping siblings at the same position the later-added one is
returned. -/
theorem findWidgetAt_frontmost_visible :
    (∀ (w : Widget) (ox oy px py : Int),
      findWidgetAt w ox oy px py =
        ((hitOrder w ox oy).find? (hitP px py)).map (fun e => e.1)) ∧
    (∀ (ox oy px py : Int) (d : WData) (cs : WidgetList), d.visible = false →
      findWidgetAt (Widget.node d cs) ox oy px py = none) ∧
    (∀ (w : Widget) (ox oy : Int) (e : Widget × Int × Int),
      e ∈ hitOrder w ox oy → e.1.visible = true) ∧
    (∀ (w : Widget) (ox oy : Int) (e : Widget × Int × Int),
      e ∈ hitOrder w ox oy → e ∈ nodesAbs w ox oy) ∧
    (∀ (w : Widget) (ox oy px py : Int),
      (∀ e ∈ nodesAbs w ox oy, hitP px py e = false) →
      findWidgetAt w ox oy px py = none) ∧
    (∀ (w : Widget) (ox oy px py : Int),
      (findWidgetAt w ox oy px py = none ↔
        ∀ e ∈ hitOrder w ox oy, hitP px py e = false)) ∧
    ((findWidgetAt tieRoot 0 0 5 5).map Widget.wid = some "b2") := by
  have hnone : ∀ (w : Widget) (ox oy px py : Int),
      (findWidgetAt w ox oy px py = none ↔
        ∀ e ∈ hitOrder w ox oy, hitP px py e = false) := by
    intro w ox oy px py
    rw [findWidgetAt_eq_hit, Option.map_eq_none', List.find?_eq_none]
    simp
  refine ⟨findWidgetAt_eq_hit, ?_, hitOrder_mem_visible, hitOrder_sub_nodes, ?_, hnone, rfl⟩
  · intro ox oy px py d cs hv
    simp [findWidgetAt, hv]
  · intro w ox oy px py h
    exact (hnone w ox oy px py).2 fun e he => h e (hitOrder_sub_nodes w ox oy e he)

/-- Witness for C2: the invisible window yields no hit anywhere, and a
point outside every widget of the overlapping-siblings tree yields no
hit. -/
theorem findWidgetAt_frontmost_visible_witness :
    findWidgetAt winInvisible 0 0 5 5 = none ∧
    findWidgetAt tieRoot 0 0 500 500 = none :=
  ⟨findWidgetAt_frontmost_visible.2.1 0 0 5 5 _ _ rfl,
   findWidgetAt_frontmost_visible.2.2.2.2.1 tieRoot 0 0 500 500 (by decide)⟩

/-- C10: the hit test does not clip to ancestor bounds: in the
concrete tree, the visible button "inner" sits at absolute (50,50)
inside its parent panel whose own box is only 10×10 at the origin;
the point (55,55) lies outside the panel's box yet `findWidgetAt`
returns "inner". -/
theorem hit_test_ignores_ancestor_bounds :
    (findWidgetAt c10Root 0 0 55 55).map Widget.wid = some "inner" ∧
    containsPt c10Panel 0 0 55 55 = false ∧
    c10Panel.visible = true ∧
    containsPt c10Inner 50 50 55 55 = true :=
  ⟨rfl, by decide, rfl, by decide⟩

/-- C3 counterexample: `Window::render` is guarded only by
`g_context.renderer`, never by `visible`, so a window whose `visible`
flag is false still clears the screen and presents — its drawing trace
is not empty. -/
theorem window_render_ignores_visible_cex :
    winInvisible.visible = false ∧
    render envRenderer 0 0 winInvisible ≠ [] := by
  exact ⟨rfl, by decide⟩

/-- C3 as amended: for the widget kinds whose `render()` override
starts with `if (!visible) return;` — Button, Label, TextInput and
Container — an invisible widget renders nothing (and since Container
is the only one of these that recurses, no descendant is drawn
either); Window::render, however, does not consult `visible` at all:
its trace is the same whatever the flag's value. -/
theorem invisible_render_empty_except_window :
    (∀ (env : Backend) (ox oy : Int) (d : WData) (cs : WidgetList),
      d.visible = false → (∀ t, d.kind ≠ WKind.window t) →
      render env ox oy (Widget.node d cs) = []) ∧
    (∀ (env : Backend) (ox oy : Int) (d : WData) (cs : WidgetList) (t : String) (b : Bool),
      d.kind = WKind.window t →
      render env ox oy (Widget.node (dataWithVisible d b) cs) =
        render env ox oy (Widget.node d cs)) := by
  constructor
  · intro env ox oy d cs hv hk
    cases hkind : d.kind with
    | button t => simp [render, hkind, buttonCalls, hv]
    | label t => simp [render, hkind, labelCalls, hv]
    | textInput t ph => simp [render, hkind, textInputCalls, hv]
    | container => simp [render, hkind, hv]
    | window t => exact absurd hkind (hk t)
  · intro env ox oy d cs t b hk
    cases d with
    | mk i x y wd ht vis en hs k =>
      simp only at hk
      subst hk
      rfl

/-- Witness for C3's amended theorem: an invisible button renders
nothing, and forcing the window's flag to false leaves the window's
trace unchanged. -/
theorem invisible_render_empty_except_window_witness :
    render envRenderer 0 0 bInvisible = [] ∧
    render envRenderer 0 0
        (Widget.node (dataWithVisible ⟨"window", 0, 0, 800, 600, true, true, [],
          WKind.window "t"⟩ false) .nil) =
      render envRenderer 0 0 winVisible :=
  ⟨invisible_render_empty_except_window.1 envRenderer 0 0 _ _ rfl (fun t h => nomatch h),
   invisible_render_empty_except_window.2 envRenderer 0 0
     ⟨"window", 0, 0, 800, 600, true, true, [], WKind.window "t"⟩ .nil "t" false rfl⟩

/-- C7 counterexample: `Button::render` reads the live mouse position
(SDL_GetMouseState) for its hover and pressed colors, so two renders
of the very same widget, with the font, renderer and measurement
unchanged, produce different traces once the mouse has moved over the
button between the calls. -/
theorem button_render_reads_mouse_cex :
    envMouseOut.fontPresent = envMouseIn.fontPresent ∧
    envMouseOut.rendererPresent = envMouseIn.rendererPresent ∧
    envMouseOut.measure = envMouseIn.measure ∧
    render envMouseOut 0 0 bPlain ≠ render envMouseIn 0 0 bPlain :=
  ⟨rfl, rfl, rfl, by decide⟩

/-- C7 as amended: rendering is deterministic in the widget state
together with the backend state it reads — renderer and font
presence, the text measurement and the mouse state; with all of those
unchanged between two calls, the traces are identical.  Widget state
alone does not suffice, since Button::render also reads the mouse. -/
theorem render_deterministic_given_backend :
    ∀ (env env2 : Backend),
      env.rendererPresent = env2.rendererPresent →
      env.fontPresent = env2.fontPresent →
      env.measure = env2.measure →
      env.mouseX = env2.mouseX →
      env.mouseY = env2.mouseY →
      env.mouseLeftDown = env2.mouseLeftDown →
      ∀ (ox oy : Int) (w : Widget), render env ox oy w = render env2 ox oy w := by
  intro env env2 h1 h2 h3 h4 h5 h6 ox oy w
  have he : env = env2 := by
    cases env; cases env2; simp_all
  rw [he]

/-- Witness for C7's amended theorem: two renders of `bPlain` under
the identical backend state coincide. -/
theorem render_deterministic_given_backend_witness :
    render envMouseOut 0 0 bPlain = render envMouseOut 0 0 bPlain :=
  render_deterministic_given_backend envMouseOut envMouseOut
    rfl rfl rfl rfl rfl rfl 0 0 bPlain

end Gui


